import Mathlib

/-!
Verification of the `ChatConsumer` core of the `web_chat` repository
(`chat/room/consumers.py`), shallowly embedded in Lean 4.

The embedding models:
  * the per-room message buffer (`add_message_to_buffer`),
  * the history merger (`get_room_messages`, `get_combined_messages`),
  * the room registry (`connected_users`), the connection directory
    (`user_channels`) and the `connect` / `disconnect` lifecycle,
  * the two inbound handlers `handle_chat_message` and
    `handle_private_message`.

Python dictionaries are modelled as association lists with unique keys,
Python sets of usernames as duplicate-free lists, the database and the
channel layer as explicit parameters, and all outbound traffic (sends,
group sends, closes) as an explicit effect list.  Python string
comparison is lexicographic on code points, modelled by `≤` on the
strings' character lists; `str.strip()` is modelled by `pyStrip`;
`list.sort` is a stable sort by key, modelled by the stable
`List.insertionSort`.
-/

namespace WebChat

/-- Association-list lookup, modelling Python `d[k]` / `d.get(k)`. -/
def alookup {α : Type} : List (String × α) → String → Option α
  | [], _ => none
  | (k', v) :: t, k => if k' = k then some v else alookup t k

/-- Association-list insert/replace, modelling Python `d[k] = v`. -/
def ainsert {α : Type} : List (String × α) → String → α → List (String × α)
  | [], k, v => [(k, v)]
  | (k', v') :: t, k, v => if k' = k then (k, v) :: t else (k', v') :: ainsert t k v

/-- Association-list key removal, modelling Python `del d[k]`. -/
def aerase {α : Type} : List (String × α) → String → List (String × α)
  | [], _ => []
  | (k', v') :: t, k => if k' = k then t else (k', v') :: aerase t k

/-- Python `str.strip()`: remove leading and trailing whitespace. -/
def pyStrip (s : String) : String :=
  ⟨((s.data.dropWhile Char.isWhitespace).reverse.dropWhile Char.isWhitespace).reverse⟩

/-- A buffered message, as stored by `add_message_to_buffer`
(`message_data` dict: id, content, author username, timestamp string). -/
structure BufEntry where
  id : Nat
  message : String
  username : String
  timestamp : String
deriving DecidableEq, Repr

/-- A history entry as produced by `get_room_messages` /
`get_combined_messages` (id, content, author username, and
`date_added`, which the database may report as `None`). -/
structure DbEntry where
  id : Nat
  message : String
  username : String
  date_added : Option String
deriving DecidableEq, Repr

/-- Conversion applied to buffer entries inside `get_combined_messages`:
the buffered `timestamp` becomes the merged entry's `date_added`. -/
def bufToEntry (m : BufEntry) : DbEntry :=
  ⟨m.id, m.message, m.username, some m.timestamp⟩

/-- The sort key used by `get_combined_messages`:
`x['date_added'] if x['date_added'] else ''`. -/
def mergeKey (e : DbEntry) : String :=
  e.date_added.getD ""

/-- The sort comparison of `get_combined_messages`: Python string `≤`
on merge keys, i.e. lexicographic comparison of the code-point lists. -/
def mergeLE (a b : DbEntry) : Prop :=
  (mergeKey a).data ≤ (mergeKey b).data

instance : DecidableRel mergeLE := fun a b =>
  inferInstanceAs (Decidable ((mergeKey a).data ≤ (mergeKey b).data))

/-- One iteration of the deduplicating accumulation loops of
`get_combined_messages`: append the entry unless its id is in `seen_ids`. -/
def dedupStep (acc : List DbEntry × List Nat) (m : DbEntry) : List DbEntry × List Nat :=
  if m.id ∈ acc.2 then acc else (acc.1 ++ [m], m.id :: acc.2)

/-- The deduplicated combined list of `get_combined_messages` before
sorting: first the buffer snapshot in reverse order (converted by
`bufToEntry`), then the store page, skipping already-seen ids. -/
def combinedMessages (buf : List BufEntry) (db : List DbEntry) : List DbEntry :=
  (db.foldl dedupStep ((buf.reverse.map bufToEntry).foldl dedupStep ([], []))).1

/-- The combined list after `combined_messages.sort(key=...)`: a stable
sort by the merge key (Python's `list.sort` is stable; the stable
`insertionSort` computes the same list). -/
def sortedCombined (buf : List BufEntry) (db : List DbEntry) : List DbEntry :=
  (combinedMessages buf db).insertionSort mergeLE

/-- Python's `l[-n:]` slice: for `n = 0` it returns the whole list,
otherwise the last `n` elements. -/
def pyTakeLast {α : Type} (l : List α) (n : Nat) : List α :=
  if n = 0 then l else l.drop (l.length - n)

/-- `get_combined_messages(room_slug, limit)`, as a pure function of the
room's buffer snapshot and the store page it fetches: deduplicate by id
(buffer first, newest first), sort by timestamp string (missing/empty
timestamps keyed as `''`), and return the final `limit`-sized slice. -/
def get_combined_messages (buf : List BufEntry) (db : List DbEntry) (limit : Nat) : List DbEntry :=
  pyTakeLast (sortedCombined buf db) limit

/-- `get_room_messages(room_slug, limit)`: the store page, i.e. the first
`limit` entries of the room's persisted messages ordered ascending by
`date_added` (the `order_by('date_added')[:limit]` query). The input list
is the room's full persisted history in that ascending order. -/
def get_room_messages (msgs : List DbEntry) (limit : Nat) : List DbEntry :=
  msgs.take limit

/-- One buffer append with the cap of 50, as in `add_message_to_buffer`:
append, then keep only the final 50 entries when the length exceeds 50. -/
def bufferAppend (buf : List BufEntry) (e : BufEntry) : List BufEntry :=
  let b := buf ++ [e]
  if b.length > 50 then b.drop (b.length - 50) else b

/-- The process-wide mutable class state of `ChatConsumer`:
`connected_users` (room slug → set of usernames), `user_channels`
(username → channel name), `message_buffer` (room slug → entries). -/
structure GlobalState where
  connected_users : List (String × List String)
  user_channels : List (String × String)
  message_buffer : List (String × List BufEntry)
deriving DecidableEq, Repr

/-- The connection-scoped data of one consumer instance: the room slug
from the URL route, the scope user (anonymous flag and username) and the
channel name. -/
structure Session where
  room_slug : String
  user_is_anonymous : Bool
  username : String
  channel_name : String
deriving DecidableEq, Repr

/-- `self.room_group_name = f'chat_{self.room_slug}'`. -/
def roomGroup (slug : String) : String :=
  "chat_" ++ slug

/-- An entry of the `private_history` payload (`get_private_messages`). -/
structure PrivHistEntry where
  id : Nat
  message : String
  from_username : String
  to_username : String
  timestamp : String
  direction : String
deriving DecidableEq, Repr

/-- An observable effect of a consumer method: an outbound frame to this
connection (`send`), channel-layer traffic (`group_*`, `channel_send`),
the accept/close of the socket, or a persistence call. -/
inductive Effect where
  | close
  | accept
  | groupAdd (group chan : String)
  | groupDiscard (group chan : String)
  | sendErrorUserNotFound
  | sendErrorPrivateFailed
  | sendHistory (msgs : List DbEntry)
  | sendPrivateHistory (msgs : List PrivHistEntry)
  | sendPrivateMessageSent (message to_username ts : String) (id : Nat)
  | channelPrivateMessage (chan message from_username ts : String) (id : Nat)
  | groupChatMessage (group message username : String) (id : Nat) (ts : String)
  | groupUserJoined (group username ts : String)
  | groupUserLeft (group username ts : String)
  | groupOnlineUsers (group : String) (users : List String) (count : Nat)
  | persistChat (username room content : String)
  | persistPrivate (from_username to_username content : String)
deriving DecidableEq, Repr

/-- `add_user_to_room`: ensure the room has a user set, then add the
username to it (Python `set.add`: no duplicates). -/
def add_user_to_room (st : GlobalState) (room username : String) : GlobalState :=
  let users := (alookup st.connected_users room).getD []
  let users' := if username ∈ users then users else users ++ [username]
  { st with connected_users := ainsert st.connected_users room users' }

/-- `remove_user_from_room`: remove the username from the room's set if
present; drop the room's registry entry entirely when the set empties. -/
def remove_user_from_room (st : GlobalState) (room username : String) : GlobalState :=
  match alookup st.connected_users room with
  | none => st
  | some users =>
    if username ∈ users then
      let users' := users.erase username
      if users'.length = 0 then
        { st with connected_users := aerase st.connected_users room }
      else
        { st with connected_users := ainsert st.connected_users room users' }
    else st

/-- `send_online_users`: broadcast the room's current user list to the
room group, but only when the room has a registry entry. -/
def send_online_users (st : GlobalState) (room : String) : List Effect :=
  match alookup st.connected_users room with
  | none => []
  | some users => [.groupOnlineUsers (roomGroup room) users users.length]

/-- `add_message_to_buffer`: append the entry to the room's buffer
(creating it when absent), truncating to the most recent 50. -/
def add_message_to_buffer (st : GlobalState) (room : String) (e : BufEntry) : GlobalState :=
  let buf := (alookup st.message_buffer room).getD []
  { st with message_buffer := ainsert st.message_buffer room (bufferAppend buf e) }

/-- `connect`: close immediately for an anonymous user or a nonexistent
room; otherwise join the group, accept, register the channel, add the
user to the registry, broadcast `online_users` and `user_joined`, then
send the merged history and the private history to this connection.
`room_exists` is the `check_room_exists` database answer, `dbPage` the
`get_room_messages` store page, `privHist` the private-history page and
`now` the `timezone.now().isoformat()` timestamp. -/
def connect (st : GlobalState) (sess : Session) (room_exists : Bool)
    (dbPage : List DbEntry) (privHist : List PrivHistEntry) (now : String) :
    GlobalState × List Effect :=
  if sess.user_is_anonymous then (st, [.close])
  else if !room_exists then (st, [.close])
  else
    let g := roomGroup sess.room_slug
    let st1 := { st with user_channels := ainsert st.user_channels sess.username sess.channel_name }
    let st2 := add_user_to_room st1 sess.room_slug sess.username
    let hist := get_combined_messages ((alookup st2.message_buffer sess.room_slug).getD []) dbPage 50
    (st2, [.groupAdd g sess.channel_name, .accept] ++ send_online_users st2 sess.room_slug ++
      [.groupUserJoined g sess.username now, .sendHistory hist, .sendPrivateHistory privHist])

/-- `disconnect`: when `self.room_group_name` exists (`has_room_group`,
set by every `connect` call before any check) and the user is not
anonymous, remove the user from the registry, delete the user's channel
entry if present, broadcast `online_users` and `user_left`, and leave
the group; otherwise do nothing. -/
def disconnect (st : GlobalState) (sess : Session) (has_room_group : Bool) (now : String) :
    GlobalState × List Effect :=
  if has_room_group && !sess.user_is_anonymous then
    let g := roomGroup sess.room_slug
    let st1 := remove_user_from_room st sess.room_slug sess.username
    let st2 :=
      if (alookup st1.user_channels sess.username).isSome then
        { st1 with user_channels := aerase st1.user_channels sess.username }
      else st1
    (st2, send_online_users st2 sess.room_slug ++
      [.groupUserLeft g sess.username now, .groupDiscard g sess.channel_name])
  else (st, [])

/-- The fields read from a decoded inbound payload: `message`,
`username` and `to_username`, each defaulting to `''` when absent. -/
structure Payload where
  message : String
  username : String
  to_username : String
deriving DecidableEq, Repr

/-- `handle_chat_message`: strip the text (no-op when empty), check the
payload's `username` exists (else reply `error`), persist (the oracle
`saveRes` is `save_message`'s outcome: message id and `date_added`);
on success buffer the entry and broadcast `chat_message`, on failure
only log. -/
def handle_chat_message (st : GlobalState) (sess : Session) (p : Payload)
    (user_exists : String → Bool) (saveRes : Option (Nat × Option String)) (now : String) :
    GlobalState × List Effect :=
  let message := pyStrip p.message
  let username := p.username
  if message = "" then (st, [])
  else if !(user_exists username) then (st, [.sendErrorUserNotFound])
  else
    match saveRes with
    | some (mid, dadd) =>
      let ts := dadd.getD now
      let st1 := add_message_to_buffer st sess.room_slug ⟨mid, message, username, ts⟩
      (st1, [.persistChat username sess.room_slug message,
        .groupChatMessage (roomGroup sess.room_slug) message username mid ts])
    | none => (st, [.persistChat username sess.room_slug message])

/-- `handle_private_message`: strip the text (no-op when empty or when
`to_username` is empty), check both usernames exist (else reply
`error`), persist (the oracle `saveRes` is `save_private_message`'s
outcome: message id and timestamp); on failure reply `error`; on
success confirm to the sender with `private_message_sent` and, only
when the recipient has a `user_channels` entry, deliver
`private_message` to that channel. -/
def handle_private_message (st : GlobalState) (sess : Session) (p : Payload)
    (user_exists : String → Bool) (saveRes : Option (Nat × Option String)) (now : String) :
    GlobalState × List Effect :=
  let message := pyStrip p.message
  let to_username := p.to_username
  let from_username := p.username
  if message = "" || to_username = "" then (st, [])
  else if !(user_exists from_username) || !(user_exists to_username) then
    (st, [.sendErrorUserNotFound])
  else
    match saveRes with
    | none => (st, [.persistPrivate from_username to_username message, .sendErrorPrivateFailed])
    | some (mid, tstamp) =>
      let ts := tstamp.getD now
      let base := [Effect.persistPrivate from_username to_username message,
        .sendPrivateMessageSent message to_username ts mid]
      match alookup st.user_channels to_username with
      | some chan => (st, base ++ [.channelPrivateMessage chan message from_username ts mid])
      | none => (st, base)

/-! ### Association-list lemmas -/

theorem alookup_ainsert_self {α : Type} (l : List (String × α)) (k : String) (v : α) :
    alookup (ainsert l k v) k = some v := by
  induction l with
  | nil => simp [ainsert, alookup]
  | cons h t ih =>
    obtain ⟨k', v'⟩ := h
    by_cases hk : k' = k
    · simp [ainsert, hk, alookup]
    · simp [ainsert, hk, alookup, ih]

theorem alookup_eq_none_of_not_mem_keys {α : Type} (l : List (String × α)) (k : String)
    (h : k ∉ l.map Prod.fst) : alookup l k = none := by
  induction l with
  | nil => rfl
  | cons p t ih =>
    obtain ⟨k', v'⟩ := p
    simp only [List.map_cons, List.mem_cons] at h
    push_neg at h
    have hne : ¬ k' = k := fun he => h.1 he.symm
    simp [alookup, hne, ih h.2]

theorem aerase_of_alookup_none {α : Type} (l : List (String × α)) (k : String)
    (h : alookup l k = none) : aerase l k = l := by
  induction l with
  | nil => rfl
  | cons p t ih =>
    obtain ⟨k', v'⟩ := p
    by_cases hk : k' = k
    · simp [alookup, hk] at h
    · simp only [alookup, hk, if_false] at h
      simp [aerase, hk, ih h]

theorem keys_ainsert {α : Type} (l : List (String × α)) (k : String) (v : α)
    (h : k ∈ l.map Prod.fst) : (ainsert l k v).map Prod.fst = l.map Prod.fst := by
  induction l with
  | nil => simp at h
  | cons p t ih =>
    obtain ⟨k', v'⟩ := p
    by_cases hk : k' = k
    · simp [ainsert, hk]
    · simp only [List.map_cons, List.mem_cons] at h
      rcases h with h | h
      · exact absurd h.symm hk
      · simp [ainsert, hk, ih h]

theorem keys_ainsert_of_not_mem {α : Type} (l : List (String × α)) (k : String) (v : α)
    (h : k ∉ l.map Prod.fst) : (ainsert l k v).map Prod.fst = l.map Prod.fst ++ [k] := by
  induction l with
  | nil => simp [ainsert]
  | cons p t ih =>
    obtain ⟨k', v'⟩ := p
    simp only [List.map_cons, List.mem_cons] at h
    push_neg at h
    have hne : ¬ k' = k := fun he => h.1 he.symm
    simp [ainsert, hne, ih h.2]

theorem keys_ainsert_nodup {α : Type} (l : List (String × α)) (k : String) (v : α)
    (h : (l.map Prod.fst).Nodup) : ((ainsert l k v).map Prod.fst).Nodup := by
  by_cases hk : k ∈ l.map Prod.fst
  · rwa [keys_ainsert l k v hk]
  · rw [keys_ainsert_of_not_mem l k v hk]
    refine List.Nodup.append h (List.nodup_singleton k) ?_
    intro a ha hb
    simp only [List.mem_singleton] at hb
    subst hb
    exact hk ha

theorem alookup_aerase_self {α : Type} (l : List (String × α)) (k : String)
    (h : (l.map Prod.fst).Nodup) : alookup (aerase l k) k = none := by
  induction l with
  | nil => rfl
  | cons p t ih =>
    obtain ⟨k', v'⟩ := p
    simp only [List.map_cons, List.nodup_cons] at h
    by_cases hk : k' = k
    · subst hk
      simp only [aerase, if_pos rfl]
      exact alookup_eq_none_of_not_mem_keys t k' h.1
    · simp [aerase, hk, alookup, ih h.2]

/-! ### Buffer lemmas -/

theorem bufferAppend_length_le (buf : List BufEntry) (e : BufEntry) (h : buf.length ≤ 50) :
    (bufferAppend buf e).length ≤ 50 := by
  simp only [bufferAppend]
  by_cases hl : (buf ++ [e]).length > 50
  · simp only [hl, if_true, List.length_drop]
    omega
  · simp only [hl, if_false]
    omega

theorem foldl_bufferAppend_length_le (es : List BufEntry) (buf : List BufEntry)
    (h : buf.length ≤ 50) : (es.foldl bufferAppend buf).length ≤ 50 := by
  induction es generalizing buf with
  | nil => simpa
  | cons e t ih => exact ih _ (bufferAppend_length_le _ _ h)

theorem bufferAppend_of_short (buf : List BufEntry) (e : BufEntry)
    (h : buf.length + 1 ≤ 50) : bufferAppend buf e = buf ++ [e] := by
  simp only [bufferAppend]
  rw [if_neg]
  simp only [List.length_append, List.length_cons, List.length_nil]
  omega

theorem foldl_bufferAppend_of_short (es : List BufEntry) (buf : List BufEntry)
    (h : buf.length + es.length ≤ 50) : es.foldl bufferAppend buf = buf ++ es := by
  induction es generalizing buf with
  | nil => simp
  | cons e t ih =>
    simp only [List.length_cons] at h
    rw [List.foldl_cons, bufferAppend_of_short buf e (by omega), ih]
    · simp
    · simp only [List.length_append, List.length_cons, List.length_nil]
      omega

theorem bufferAppend_of_full (buf : List BufEntry) (e : BufEntry) (h : buf.length = 50) :
    bufferAppend buf e = buf.drop 1 ++ [e] := by
  simp only [bufferAppend]
  rw [if_pos]
  · have h1 : (buf ++ [e]).length - 50 = 1 := by
      simp only [List.length_append, List.length_cons, List.length_nil, h]
    rw [h1, List.drop_append_of_le_length (by omega)]
  · simp only [List.length_append, List.length_cons, List.length_nil, h]
    omega

/-! ### Claim theorems -/

/-- **C3.** The message buffer never exceeds 50 entries per room,
appending to a full buffer of 50 drops exactly the front entry (pure
FIFO truncation), the 51st entry is present and the evicted front entry
is absent afterwards; `add_message_to_buffer` applies exactly this
append to the addressed room's buffer. -/
theorem buffer_cap_and_fifo (es : List BufEntry) (e : BufEntry) (h : es.length = 50) :
    (∀ fs : List BufEntry, (fs.foldl bufferAppend []).length ≤ 50) ∧
    (es ++ [e]).foldl bufferAppend [] = es.drop 1 ++ [e] ∧
    e ∈ (es ++ [e]).foldl bufferAppend [] ∧
    (∀ x, es.head? = some x → x ∉ es.drop 1 → x ≠ e →
      x ∉ (es ++ [e]).foldl bufferAppend []) ∧
    (∀ st room e', alookup ((add_message_to_buffer st room e').message_buffer) room
      = some (bufferAppend ((alookup st.message_buffer room).getD []) e')) := by
  have hfold : (es ++ [e]).foldl bufferAppend [] = es.drop 1 ++ [e] := by
    rw [List.foldl_append, foldl_bufferAppend_of_short es [] (by simpa using h.le)]
    simp only [List.nil_append, List.foldl_cons, List.foldl_nil]
    exact bufferAppend_of_full es e h
  refine ⟨fun fs => foldl_bufferAppend_length_le fs [] (by simp), hfold, ?_, ?_, ?_⟩
  · rw [hfold]
    simp
  · intro x hx hxd hxe
    rw [hfold]
    simp only [List.mem_append, List.mem_singleton]
    rintro (hmem | hmem)
    · exact hxd hmem
    · exact hxe hmem
  · intro st room e'
    simp only [add_message_to_buffer]
    exact alookup_ainsert_self _ _ _

/-- Concrete 50-entry buffer for the C3 witness. -/
def c3Buf : List BufEntry :=
  (List.range 50).map (fun i => ⟨i, "m", "u", "t"⟩)

/-- Concrete 51st entry for the C3 witness. -/
def c3New : BufEntry :=
  ⟨50, "new", "u", "t"⟩

/-- Witness for C3 at a concrete 50-entry buffer and a 51st entry. -/
theorem buffer_cap_and_fifo_witness :
    c3Buf.length = 50 ∧
    ((∀ fs : List BufEntry, (fs.foldl bufferAppend []).length ≤ 50) ∧
    (c3Buf ++ [c3New]).foldl bufferAppend [] = c3Buf.drop 1 ++ [c3New] ∧
    c3New ∈ (c3Buf ++ [c3New]).foldl bufferAppend [] ∧
    (∀ x, c3Buf.head? = some x → x ∉ c3Buf.drop 1 → x ≠ c3New →
      x ∉ (c3Buf ++ [c3New]).foldl bufferAppend []) ∧
    (∀ st room e', alookup ((add_message_to_buffer st room e').message_buffer) room
      = some (bufferAppend ((alookup st.message_buffer room).getD []) e'))) :=
  ⟨by decide, buffer_cap_and_fifo c3Buf c3New (by decide)⟩

/-- **C5.** A failed `connect` (anonymous user, or nonexistent room)
returns with the global state untouched — no room-registry or
connection-directory mutation — and its only outbound effect is the
immediate close. -/
theorem connect_failure_clean (st : GlobalState) (sess : Session) (room_exists : Bool)
    (dbPage : List DbEntry) (privHist : List PrivHistEntry) (now : String)
    (h : sess.user_is_anonymous = true ∨ room_exists = false) :
    connect st sess room_exists dbPage privHist now = (st, [.close]) := by
  rcases h with h | h
  · simp [connect, h]
  · subst h
    by_cases ha : sess.user_is_anonymous <;> simp [connect, ha]

/-- Witness for C5: an anonymous session and a missing room, both at a
concrete state. -/
theorem connect_failure_clean_witness :
    ((true : Bool) = true ∨ (true : Bool) = false) ∧
    connect ⟨[], [], []⟩ ⟨"general", true, "alice", "ch1"⟩ true [] [] "t0"
      = (⟨[], [], []⟩, [.close]) :=
  ⟨Or.inl rfl,
    connect_failure_clean ⟨[], [], []⟩ ⟨"general", true, "alice", "ch1"⟩ true [] [] "t0"
      (Or.inl rfl)⟩

/-! ### Lifecycle lemmas -/

theorem add_user_to_room_user_channels (st : GlobalState) (room username : String) :
    (add_user_to_room st room username).user_channels = st.user_channels := rfl

theorem remove_user_from_room_user_channels (st : GlobalState) (room username : String) :
    (remove_user_from_room st room username).user_channels = st.user_channels := by
  unfold remove_user_from_room
  cases alookup st.connected_users room with
  | none => rfl
  | some users =>
    by_cases hm : username ∈ users
    · simp only [hm, if_true]
      by_cases hz : (users.erase username).length = 0 <;> simp [hz]
    · simp [hm]

theorem remove_user_from_room_of_none (st : GlobalState) (room username : String)
    (h : alookup st.connected_users room = none) :
    remove_user_from_room st room username = st := by
  unfold remove_user_from_room
  rw [h]

theorem connect_success_state (st : GlobalState) (sess : Session)
    (dbPage : List DbEntry) (privHist : List PrivHistEntry) (now : String)
    (hauth : sess.user_is_anonymous = false) :
    (connect st sess true dbPage privHist now).1 =
      add_user_to_room
        { st with user_channels := ainsert st.user_channels sess.username sess.channel_name }
        sess.room_slug sess.username := by
  simp [connect, hauth]

theorem disconnect_user_channels (st : GlobalState) (sess : Session) (now : String)
    (hauth : sess.user_is_anonymous = false) :
    (disconnect st sess true now).1.user_channels = aerase st.user_channels sess.username := by
  have hru := remove_user_from_room_user_channels st sess.room_slug sess.username
  simp only [disconnect, hauth, Bool.not_false, Bool.and_self, if_true]
  by_cases hc :
      (alookup (remove_user_from_room st sess.room_slug sess.username).user_channels
        sess.username).isSome
  · simp only [hc, if_true]
    rw [hru]
  · simp only [hc, Bool.false_eq_true, if_false]
    rw [hru]
    rw [hru] at hc
    rcases h' : alookup st.user_channels sess.username with _ | v
    · exact (aerase_of_alookup_none _ _ h').symm
    · rw [h'] at hc
      simp at hc

theorem disconnect_connected_users (st : GlobalState) (sess : Session) (now : String)
    (hauth : sess.user_is_anonymous = false) :
    (disconnect st sess true now).1.connected_users
      = (remove_user_from_room st sess.room_slug sess.username).connected_users := by
  simp only [disconnect, hauth, Bool.not_false, Bool.and_self, if_true]
  by_cases hc :
      (alookup (remove_user_from_room st sess.room_slug sess.username).user_channels
        sess.username).isSome
  · simp only [hc, if_true]
  · simp only [hc, Bool.false_eq_true, if_false]

theorem disconnect_effects_of_no_room (st : GlobalState) (sess : Session) (now : String)
    (hauth : sess.user_is_anonymous = false)
    (hroom : alookup st.connected_users sess.room_slug = none) :
    (disconnect st sess true now).2 =
      [.groupUserLeft (roomGroup sess.room_slug) sess.username now,
       .groupDiscard (roomGroup sess.room_slug) sess.channel_name] := by
  have h1 := remove_user_from_room_of_none st sess.room_slug sess.username hroom
  simp only [disconnect, hauth, Bool.not_false, Bool.and_self, if_true, h1]
  by_cases hc : (alookup st.user_channels sess.username).isSome
  · simp [hc, send_online_users, hroom]
  · simp [hc, send_online_users, hroom]

/-- **C4 (counterexample).** A session whose `connect` failed because the
room does not exist (authenticated user `bob`, room `ghost`) closes with
the state untouched, yet its `disconnect` is not a no-op: it deletes the
connection-directory entry `bob ↦ chanNew` (left by another session) and
broadcasts a `user_left` event for `bob` to the room group. -/
theorem disconnect_after_failed_connect_not_noop :
    connect ⟨[], [("bob", "chanNew")], []⟩ ⟨"ghost", false, "bob", "chanOld"⟩ false [] [] "t0"
      = (⟨[], [("bob", "chanNew")], []⟩, [.close]) ∧
    (disconnect ⟨[], [("bob", "chanNew")], []⟩ ⟨"ghost", false, "bob", "chanOld"⟩ true "t1").1.user_channels
      = [] ∧
    Effect.groupUserLeft (roomGroup "ghost") "bob" "t1"
      ∈ (disconnect ⟨[], [("bob", "chanNew")], []⟩ ⟨"ghost", false, "bob", "chanOld"⟩ true "t1").2 := by
  decide

/-- **C4 (amended).** `disconnect` is a no-op exactly for sessions whose
user is anonymous.  For an authenticated session whose `connect` failed
on the room-existence check (so the room has no registry entry), the
connect call itself leaves the state untouched and only closes, but a
subsequent `disconnect` still runs the full leave path: the room
registry is unchanged, yet any connection-directory entry stored under
the session's username is deleted, and `user_left` is broadcast to the
room group (followed by the group discard). -/
theorem disconnect_noop_only_when_anonymous (st st' : GlobalState) (sess sess' : Session)
    (dbPage : List DbEntry) (privHist : List PrivHistEntry)
    (now now' : String)
    (hanon : sess.user_is_anonymous = true)
    (hauth : sess'.user_is_anonymous = false)
    (hroom : alookup st'.connected_users sess'.room_slug = none) :
    disconnect st sess true now = (st, []) ∧
    connect st' sess' false dbPage privHist now' = (st', [.close]) ∧
    (disconnect st' sess' true now').1.connected_users = st'.connected_users ∧
    (disconnect st' sess' true now').1.user_channels = aerase st'.user_channels sess'.username ∧
    (disconnect st' sess' true now').2 =
      [.groupUserLeft (roomGroup sess'.room_slug) sess'.username now',
       .groupDiscard (roomGroup sess'.room_slug) sess'.channel_name] := by
  refine ⟨by simp [disconnect, hanon], ?_, ?_, ?_, ?_⟩
  · by_cases ha : sess'.user_is_anonymous <;> simp [connect, ha]
  · rw [disconnect_connected_users st' sess' now' hauth,
      remove_user_from_room_of_none st' sess'.room_slug sess'.username hroom]
  · exact disconnect_user_channels st' sess' now' hauth
  · exact disconnect_effects_of_no_room st' sess' now' hauth hroom

/-- Witness for the amended C4 at concrete states and sessions. -/
theorem disconnect_noop_only_when_anonymous_witness :
    (⟨"r", true, "ann", "c0"⟩ : Session).user_is_anonymous = true ∧
    (⟨"ghost", false, "bob", "chanOld"⟩ : Session).user_is_anonymous = false ∧
    alookup (⟨[], [("bob", "chanNew")], []⟩ : GlobalState).connected_users "ghost" = none ∧
    (disconnect ⟨[("r", ["x"])], [], []⟩ ⟨"r", true, "ann", "c0"⟩ true "t2"
        = (⟨[("r", ["x"])], [], []⟩, []) ∧
      connect ⟨[], [("bob", "chanNew")], []⟩ ⟨"ghost", false, "bob", "chanOld"⟩ false [] [] "t3"
        = (⟨[], [("bob", "chanNew")], []⟩, [.close]) ∧
      (disconnect ⟨[], [("bob", "chanNew")], []⟩ ⟨"ghost", false, "bob", "chanOld"⟩ true "t4").1.connected_users
        = (⟨[], [("bob", "chanNew")], []⟩ : GlobalState).connected_users ∧
      (disconnect ⟨[], [("bob", "chanNew")], []⟩ ⟨"ghost", false, "bob", "chanOld"⟩ true "t4").1.user_channels
        = aerase [("bob", "chanNew")] "bob" ∧
      (disconnect ⟨[], [("bob", "chanNew")], []⟩ ⟨"ghost", false, "bob", "chanOld"⟩ true "t4").2
        = [.groupUserLeft (roomGroup "ghost") "bob" "t4",
           .groupDiscard (roomGroup "ghost") "chanOld"]) :=
  ⟨rfl, rfl, rfl,
    disconnect_noop_only_when_anonymous ⟨[("r", ["x"])], [], []⟩ ⟨[], [("bob", "chanNew")], []⟩
      ⟨"r", true, "ann", "c0"⟩ ⟨"ghost", false, "bob", "chanOld"⟩ [] [] "t2" "t4"
      rfl rfl rfl⟩

/-- **C9.** `disconnect` deletes the connection-directory entry keyed by
the username without checking that the stored channel belongs to the
disconnecting session: after a second session of the same user connects
(overwriting `user_channels` last-write-wins), the first session's
`disconnect` removes the new session's entry, leaving the user with no
channel entry at all. -/
theorem stale_disconnect_clears_new_channel (st : GlobalState) (sessA sessB : Session)
    (dbPage : List DbEntry) (privHist : List PrivHistEntry) (nowB nowA : String)
    (hA : sessA.user_is_anonymous = false) (hB : sessB.user_is_anonymous = false)
    (hsame : sessB.username = sessA.username)
    (hnodup : (st.user_channels.map Prod.fst).Nodup) :
    alookup ((connect st sessB true dbPage privHist nowB).1).user_channels sessA.username
      = some sessB.channel_name ∧
    alookup ((disconnect ((connect st sessB true dbPage privHist nowB).1) sessA true nowA).1).user_channels
      sessA.username = none := by
  have hch : ((connect st sessB true dbPage privHist nowB).1).user_channels
      = ainsert st.user_channels sessB.username sessB.channel_name := by
    rw [connect_success_state st sessB dbPage privHist nowB hB,
      add_user_to_room_user_channels]
  constructor
  · rw [hch, ← hsame]
    exact alookup_ainsert_self _ _ _
  · rw [disconnect_user_channels _ sessA nowA hA, hch, ← hsame]
    exact alookup_aerase_self _ _ (keys_ainsert_nodup _ _ _ hnodup)

/-- Witness for C9: `bob` reconnects on channel `chanNew`, then the old
session (channel `chanOld`) disconnects; the directory ends with no
entry for `bob`. -/
theorem stale_disconnect_clears_new_channel_witness :
    (⟨"general", false, "bob", "chanOld"⟩ : Session).user_is_anonymous = false ∧
    (⟨"general", false, "bob", "chanNew"⟩ : Session).user_is_anonymous = false ∧
    (⟨"general", false, "bob", "chanNew"⟩ : Session).username
      = (⟨"general", false, "bob", "chanOld"⟩ : Session).username ∧
    (((⟨[], [("bob", "chanOld")], []⟩ : GlobalState).user_channels.map Prod.fst).Nodup) ∧
    (alookup ((connect ⟨[], [("bob", "chanOld")], []⟩ ⟨"general", false, "bob", "chanNew"⟩
        true [] [] "t0").1).user_channels "bob" = some "chanNew" ∧
      alookup ((disconnect ((connect ⟨[], [("bob", "chanOld")], []⟩
          ⟨"general", false, "bob", "chanNew"⟩ true [] [] "t0").1)
        ⟨"general", false, "bob", "chanOld"⟩ true "t1").1).user_channels "bob" = none) :=
  ⟨rfl, rfl, rfl, by decide,
    stale_disconnect_clears_new_channel ⟨[], [("bob", "chanOld")], []⟩
      ⟨"general", false, "bob", "chanOld"⟩ ⟨"general", false, "bob", "chanNew"⟩
      [] [] "t0" "t1" rfl rfl rfl (by decide)⟩

/-- **C6.** Persistence-failure surfacing is asymmetric.  When
`save_message` fails for a valid chat message (non-empty stripped text,
existing author), the handler leaves the state — in particular the
message buffer — unchanged and emits nothing beyond the persistence
attempt: no error to the sender, no broadcast.  When
`save_private_message` fails for a valid private message, the sender
receives an `error` event, and no confirmation or delivery is emitted. -/
theorem persistence_failure_asymmetry (st : GlobalState) (sess : Session) (p q : Payload)
    (ue : String → Bool) (now : String)
    (hp : pyStrip p.message ≠ "") (hpu : ue p.username = true)
    (hq : pyStrip q.message ≠ "") (hqt : q.to_username ≠ "")
    (hqf : ue q.username = true) (hqr : ue q.to_username = true) :
    handle_chat_message st sess p ue none now
      = (st, [.persistChat p.username sess.room_slug (pyStrip p.message)]) ∧
    handle_private_message st sess q ue none now
      = (st, [.persistPrivate q.username q.to_username (pyStrip q.message),
              .sendErrorPrivateFailed]) := by
  constructor
  · simp [handle_chat_message, hp, hpu]
  · simp [handle_private_message, hq, hqt, hqf, hqr]

/-- Witness for C6: concrete valid chat and private payloads whose
persistence fails. -/
theorem persistence_failure_asymmetry_witness :
    pyStrip (Payload.mk " hi " "alice" "").message ≠ "" ∧
    (fun _ : String => true) "alice" = true ∧
    pyStrip (Payload.mk " yo " "bob" "carol").message ≠ "" ∧
    (Payload.mk " yo " "bob" "carol").to_username ≠ "" ∧
    (fun _ : String => true) "bob" = true ∧
    (fun _ : String => true) "carol" = true ∧
    (handle_chat_message ⟨[], [], []⟩ ⟨"general", false, "alice", "c1"⟩
        (Payload.mk " hi " "alice" "") (fun _ => true) none "t0"
      = (⟨[], [], []⟩, [.persistChat "alice" "general" (pyStrip " hi ")]) ∧
    handle_private_message ⟨[], [], []⟩ ⟨"general", false, "bob", "c2"⟩
        (Payload.mk " yo " "bob" "carol") (fun _ => true) none "t0"
      = (⟨[], [], []⟩, [.persistPrivate "bob" "carol" (pyStrip " yo "),
          .sendErrorPrivateFailed])) :=
  ⟨by decide, rfl, by decide, by decide, rfl, rfl,
    persistence_failure_asymmetry ⟨[], [], []⟩ ⟨"general", false, "alice", "c1"⟩
      (Payload.mk " hi " "alice" "") (Payload.mk " yo " "bob" "carol")
      (fun _ => true) "t0" (by decide) rfl (by decide) (by decide) rfl rfl⟩

/-- **C7.** A valid private message to an offline recipient (no
`user_channels` entry) is persisted, the sender receives the
`private_message_sent` confirmation echoing message, recipient,
timestamp and id, and no live `private_message` event is delivered to
any channel. -/
theorem private_message_offline_recipient (st : GlobalState) (sess : Session) (q : Payload)
    (ue : String → Bool) (mid : Nat) (tstamp : Option String) (now : String)
    (hq : pyStrip q.message ≠ "") (hqt : q.to_username ≠ "")
    (hqf : ue q.username = true) (hqr : ue q.to_username = true)
    (hoff : alookup st.user_channels q.to_username = none) :
    handle_private_message st sess q ue (some (mid, tstamp)) now
      = (st, [.persistPrivate q.username q.to_username (pyStrip q.message),
              .sendPrivateMessageSent (pyStrip q.message) q.to_username (tstamp.getD now) mid]) ∧
    (∀ c m f t i, Effect.channelPrivateMessage c m f t i
        ∉ (handle_private_message st sess q ue (some (mid, tstamp)) now).2) := by
  have h1 : handle_private_message st sess q ue (some (mid, tstamp)) now
      = (st, [.persistPrivate q.username q.to_username (pyStrip q.message),
              .sendPrivateMessageSent (pyStrip q.message) q.to_username (tstamp.getD now) mid]) := by
    simp [handle_private_message, hq, hqt, hqf, hqr, hoff]
  refine ⟨h1, ?_⟩
  intro c m f t i
  rw [h1]
  simp

/-- Witness for C7: `bob` sends `yo` to the offline `carol`. -/
theorem private_message_offline_recipient_witness :
    pyStrip (Payload.mk "yo" "bob" "carol").message ≠ "" ∧
    (Payload.mk "yo" "bob" "carol").to_username ≠ "" ∧
    (fun _ : String => true) "bob" = true ∧
    (fun _ : String => true) "carol" = true ∧
    alookup (⟨[], [("bob", "c2")], []⟩ : GlobalState).user_channels "carol" = none ∧
    (handle_private_message ⟨[], [("bob", "c2")], []⟩ ⟨"general", false, "bob", "c2"⟩
        (Payload.mk "yo" "bob" "carol") (fun _ => true) (some (7, some "ts7")) "t0"
      = (⟨[], [("bob", "c2")], []⟩, [.persistPrivate "bob" "carol" (pyStrip "yo"),
          .sendPrivateMessageSent (pyStrip "yo") "carol" ((some "ts7").getD "t0") 7]) ∧
    (∀ c m f t i, Effect.channelPrivateMessage c m f t i
        ∉ (handle_private_message ⟨[], [("bob", "c2")], []⟩ ⟨"general", false, "bob", "c2"⟩
            (Payload.mk "yo" "bob" "carol") (fun _ => true) (some (7, some "ts7")) "t0").2)) :=
  ⟨by decide, by decide, rfl, rfl, by decide,
    private_message_offline_recipient ⟨[], [("bob", "c2")], []⟩ ⟨"general", false, "bob", "c2"⟩
      (Payload.mk "yo" "bob" "carol") (fun _ => true) 7 (some "ts7") "t0"
      (by decide) (by decide) rfl rfl (by decide)⟩

/-- **C10.** `handle_chat_message` is independent of the session's
authenticated identity: two sessions that agree on the room slug (but
may differ in their authenticated user) produce identical states and
effects on the same payload, and both the persisted author and the
broadcast `username` come solely from the payload's `username` field. -/
theorem chat_message_ignores_session_identity (st : GlobalState) (s1 s2 : Session) (p : Payload)
    (ue : String → Bool) (saveRes : Option (Nat × Option String)) (now : String)
    (hroom : s1.room_slug = s2.room_slug) :
    handle_chat_message st s1 p ue saveRes now = handle_chat_message st s2 p ue saveRes now ∧
    (∀ mid dadd, saveRes = some (mid, dadd) → pyStrip p.message ≠ "" → ue p.username = true →
      (handle_chat_message st s1 p ue saveRes now).2 =
        [.persistChat p.username s1.room_slug (pyStrip p.message),
         .groupChatMessage (roomGroup s1.room_slug) (pyStrip p.message) p.username mid
           (dadd.getD now)]) := by
  constructor
  · simp only [handle_chat_message, hroom]
  · intro mid dadd hsave hmsg huser
    subst hsave
    simp [handle_chat_message, hmsg, huser]

/-- Witness for C10: two sessions in `general` authenticated as `mallory`
and `alice`, a payload naming `alice` as author. -/
theorem chat_message_ignores_session_identity_witness :
    (⟨"general", false, "mallory", "c9"⟩ : Session).room_slug
      = (⟨"general", false, "alice", "c1"⟩ : Session).room_slug ∧
    (handle_chat_message ⟨[], [], []⟩ ⟨"general", false, "mallory", "c9"⟩
        (Payload.mk "hi" "alice" "") (fun _ => true) (some (3, some "ts3")) "t0"
      = handle_chat_message ⟨[], [], []⟩ ⟨"general", false, "alice", "c1"⟩
        (Payload.mk "hi" "alice" "") (fun _ => true) (some (3, some "ts3")) "t0" ∧
    (∀ mid dadd, (some ((3 : Nat), some "ts3") : Option (Nat × Option String)) = some (mid, dadd) →
      pyStrip (Payload.mk "hi" "alice" "").message ≠ "" →
      (fun _ : String => true) (Payload.mk "hi" "alice" "").username = true →
      (handle_chat_message ⟨[], [], []⟩ ⟨"general", false, "mallory", "c9"⟩
          (Payload.mk "hi" "alice" "") (fun _ => true) (some (3, some "ts3")) "t0").2 =
        [.persistChat "alice" (⟨"general", false, "mallory", "c9"⟩ : Session).room_slug
            (pyStrip "hi"),
         .groupChatMessage (roomGroup (⟨"general", false, "mallory", "c9"⟩ : Session).room_slug)
            (pyStrip "hi") "alice" mid (dadd.getD "t0")])) :=
  ⟨rfl,
    chat_message_ignores_session_identity ⟨[], [], []⟩ ⟨"general", false, "mallory", "c9"⟩
      ⟨"general", false, "alice", "c1"⟩ (Payload.mk "hi" "alice" "") (fun _ => true)
      (some (3, some "ts3")) "t0" rfl⟩

/-! ### Merger lemmas -/

instance : IsTotal DbEntry mergeLE :=
  ⟨fun a b => le_total (mergeKey a).data (mergeKey b).data⟩

instance : IsTrans DbEntry mergeLE :=
  ⟨fun _ _ _ h1 h2 => le_trans h1 h2⟩

theorem pyTakeLast_sublist {α : Type} (l : List α) (n : Nat) :
    List.Sublist (pyTakeLast l n) l := by
  unfold pyTakeLast
  by_cases h : n = 0
  · simp [h]
  · simp [h, List.drop_sublist]

theorem pyTakeLast_suffix {α : Type} (l : List α) (n : Nat) : pyTakeLast l n <:+ l := by
  unfold pyTakeLast
  by_cases h : n = 0
  · simp [h]
  · simp [h, List.drop_suffix]

theorem pyTakeLast_length_le {α : Type} (l : List α) (n : Nat) (h : 0 < n) :
    (pyTakeLast l n).length ≤ n := by
  unfold pyTakeLast
  rw [if_neg (by omega), List.length_drop]
  omega

theorem string_eq_empty_of_data {s : String} (h : s.data = []) : s = "" :=
  String.ext h

theorem data_le_nil_eq {l : List Char} (h : l ≤ []) : l = [] :=
  le_antisymm h List.nil_le

theorem dedup_foldl_mem :
    ∀ (ms : List DbEntry) (acc : List DbEntry × List Nat) (e : DbEntry),
      e ∈ (ms.foldl dedupStep acc).1 → e ∈ acc.1 ∨ e ∈ ms := by
  intro ms
  induction ms with
  | nil => exact fun acc e h => Or.inl h
  | cons m t ih =>
    intro acc e h
    rw [List.foldl_cons] at h
    rcases ih _ e h with h1 | h1
    · by_cases hm : m.id ∈ acc.2
      · simp only [dedupStep, hm, if_true] at h1
        exact Or.inl h1
      · simp only [dedupStep, hm, if_false] at h1
        rcases List.mem_append.mp h1 with h2 | h2
        · exact Or.inl h2
        · simp only [List.mem_singleton] at h2
          subst h2
          exact Or.inr (List.mem_cons_self _ _)
    · exact Or.inr (List.mem_cons_of_mem _ h1)

theorem dedup_foldl_inv :
    ∀ (ms : List DbEntry) (acc : List DbEntry × List Nat),
      (acc.1.map DbEntry.id).Nodup → (∀ j, j ∈ acc.1.map DbEntry.id ↔ j ∈ acc.2) →
      ((ms.foldl dedupStep acc).1.map DbEntry.id).Nodup ∧
      (∀ j, j ∈ (ms.foldl dedupStep acc).1.map DbEntry.id ↔ j ∈ (ms.foldl dedupStep acc).2) ∧
      (∀ j, j ∈ (ms.foldl dedupStep acc).1.map DbEntry.id ↔
        j ∈ acc.1.map DbEntry.id ∨ j ∈ ms.map DbEntry.id) := by
  intro ms
  induction ms with
  | nil =>
    intro acc h1 h2
    refine ⟨h1, h2, fun j => ?_⟩
    simp
  | cons m t ih =>
    intro acc h1 h2
    rw [List.foldl_cons]
    by_cases hm : m.id ∈ acc.2
    · have hstep : dedupStep acc m = acc := by simp [dedupStep, hm]
      rw [hstep]
      obtain ⟨g1, g2, g3⟩ := ih acc h1 h2
      refine ⟨g1, g2, fun j => ?_⟩
      rw [g3 j]
      have hma : m.id ∈ acc.1.map DbEntry.id := (h2 m.id).mpr hm
      simp only [List.map_cons, List.mem_cons]
      constructor
      · rintro (h | h)
        · exact Or.inl h
        · exact Or.inr (Or.inr h)
      · rintro (h | h | h)
        · exact Or.inl h
        · exact Or.inl (h ▸ hma)
        · exact Or.inr h
    · have hstep : dedupStep acc m = (acc.1 ++ [m], m.id :: acc.2) := by
        simp [dedupStep, hm]
      rw [hstep]
      have hnm : m.id ∉ acc.1.map DbEntry.id := fun hc => hm ((h2 m.id).mp hc)
      have h1' : (((acc.1 ++ [m], m.id :: acc.2) : List DbEntry × List Nat).1.map
          DbEntry.id).Nodup := by
        simp only [List.map_append, List.map_cons, List.map_nil]
        refine List.Nodup.append h1 (List.nodup_singleton m.id) ?_
        intro a ha hb
        simp only [List.mem_singleton] at hb
        subst hb
        exact hnm ha
      have h2' : ∀ j, j ∈ ((acc.1 ++ [m], m.id :: acc.2) : List DbEntry × List Nat).1.map
          DbEntry.id ↔ j ∈ ((acc.1 ++ [m], m.id :: acc.2) : List DbEntry × List Nat).2 := by
        intro j
        simp only [List.map_append, List.map_cons, List.map_nil, List.mem_append,
          List.mem_singleton, List.mem_cons]
        rw [← h2 j]
        tauto
      obtain ⟨g1, g2, g3⟩ := ih _ h1' h2'
      refine ⟨g1, g2, fun j => ?_⟩
      rw [g3 j]
      simp only [List.map_append, List.map_cons, List.map_nil, List.mem_append,
        List.mem_singleton, List.mem_cons]
      tauto

theorem bufToEntry_id (b : BufEntry) : (bufToEntry b).id = b.id := rfl

theorem mem_bufMapped_ids (buf : List BufEntry) (j : Nat) :
    j ∈ (buf.reverse.map bufToEntry).map DbEntry.id ↔ j ∈ buf.map BufEntry.id := by
  simp [List.map_map, Function.comp, bufToEntry_id]

theorem combinedMessages_ids (buf : List BufEntry) (db : List DbEntry) :
    ((combinedMessages buf db).map DbEntry.id).Nodup ∧
    (∀ j, j ∈ (combinedMessages buf db).map DbEntry.id ↔
      j ∈ buf.map BufEntry.id ∨ j ∈ db.map DbEntry.id) := by
  have base1 : ((([], []) : List DbEntry × List Nat).1.map DbEntry.id).Nodup := by simp
  have base2 : ∀ j, j ∈ (([], []) : List DbEntry × List Nat).1.map DbEntry.id ↔
      j ∈ (([], []) : List DbEntry × List Nat).2 := by simp
  obtain ⟨i1, i2, i3⟩ := dedup_foldl_inv (buf.reverse.map bufToEntry) ([], []) base1 base2
  obtain ⟨o1, o2, o3⟩ := dedup_foldl_inv db _ i1 i2
  refine ⟨o1, fun j => ?_⟩
  unfold combinedMessages
  rw [o3 j, i3 j, mem_bufMapped_ids]
  simp

/-! ### Merger claim theorems -/

/-- **C1.** The merged history is sorted oldest-to-newest by timestamp
string comparison (entries with missing or empty timestamps, whose sort
key is `''`, come first), its length never exceeds the requested
(positive) limit, and when the combined deduplicated set exceeds the
limit it is the most recent entries — a suffix of the sorted combined
list — that are kept. -/
theorem merged_history_sorted_capped (buf : List BufEntry) (db : List DbEntry) (limit : Nat)
    (hlim : 0 < limit) :
    (get_combined_messages buf db limit).Pairwise mergeLE ∧
    (get_combined_messages buf db limit).length ≤ limit ∧
    (get_combined_messages buf db limit).Pairwise
      (fun a b => mergeKey b = "" → mergeKey a = "") ∧
    get_combined_messages buf db limit <:+ sortedCombined buf db := by
  have hsorted : (sortedCombined buf db).Pairwise mergeLE :=
    List.sorted_insertionSort mergeLE (combinedMessages buf db)
  have hsub : List.Sublist (get_combined_messages buf db limit) (sortedCombined buf db) :=
    pyTakeLast_sublist _ _
  refine ⟨hsorted.sublist hsub, pyTakeLast_length_le _ _ hlim, ?_, pyTakeLast_suffix _ _⟩
  refine (hsorted.sublist hsub).imp ?_
  intro a b hab hb
  have hd : (mergeKey a).data ≤ (mergeKey b).data := hab
  rw [hb] at hd
  exact string_eq_empty_of_data (data_le_nil_eq hd)

/-- Witness for C1 at a concrete buffer, store page and the default
limit 50. -/
theorem merged_history_sorted_capped_witness :
    0 < 50 ∧
    ((get_combined_messages [⟨1, "a", "u", "t1"⟩] [⟨2, "b", "v", none⟩] 50).Pairwise mergeLE ∧
    (get_combined_messages [⟨1, "a", "u", "t1"⟩] [⟨2, "b", "v", none⟩] 50).length ≤ 50 ∧
    (get_combined_messages [⟨1, "a", "u", "t1"⟩] [⟨2, "b", "v", none⟩] 50).Pairwise
      (fun a b => mergeKey b = "" → mergeKey a = "") ∧
    get_combined_messages [⟨1, "a", "u", "t1"⟩] [⟨2, "b", "v", none⟩] 50
      <:+ sortedCombined [⟨1, "a", "u", "t1"⟩] [⟨2, "b", "v", none⟩]) :=
  ⟨by decide,
    merged_history_sorted_capped [⟨1, "a", "u", "t1"⟩] [⟨2, "b", "v", none⟩] 50 (by decide)⟩

/-- Buffer snapshot for the C2 counterexample: 50 entries, sharing id 0
(the oldest timestamp) with the store page. -/
def c2Buf : List BufEntry :=
  ⟨0, "m", "u", "a"⟩ :: (List.range 49).map (fun i => ⟨100 + i, "m", "u", "c"⟩)

/-- Store page for the C2 counterexample: 50 entries led by id 0. -/
def c2Db : List DbEntry :=
  ⟨0, "m", "u", some "a"⟩ :: (List.range 49).map (fun i => ⟨1 + i, "m", "u", some "b"⟩)

set_option maxRecDepth 100000 in
/-- **C2 (counterexample).** Id 0 appears in both the buffer snapshot and
the store page, yet the merged output (at the default limit 50) contains
no entry with id 0: the 99 deduplicated entries are cut to the most
recent 50 and the shared id, being oldest, is dropped — not "exactly one
entry" as claimed. -/
theorem merge_loses_shared_id :
    (0 ∈ c2Buf.map BufEntry.id) ∧ (0 ∈ c2Db.map DbEntry.id) ∧
    ((get_combined_messages c2Buf c2Db 50).map DbEntry.id).count 0 = 0 := by
  decide

/-- **C2 (amended).** De-duplication is keyed on message id alone: any id
occurring in the buffer snapshot or the store page occurs exactly once
in the deduplicated combined list, and hence at most once — but possibly
zero times, when the combined set exceeds the limit and the entry is cut
— in the final merged output. -/
theorem merge_dedup_by_id (buf : List BufEntry) (db : List DbEntry) (limit : Nat) (i : Nat)
    (h : i ∈ buf.map BufEntry.id ∨ i ∈ db.map DbEntry.id) :
    ((combinedMessages buf db).map DbEntry.id).count i = 1 ∧
    ((get_combined_messages buf db limit).map DbEntry.id).count i ≤ 1 := by
  obtain ⟨hnd, hiff⟩ := combinedMessages_ids buf db
  have h1 : ((combinedMessages buf db).map DbEntry.id).count i = 1 :=
    List.count_eq_one_of_mem hnd ((hiff i).mpr h)
  refine ⟨h1, ?_⟩
  have hperm : List.Perm ((sortedCombined buf db).map DbEntry.id)
      ((combinedMessages buf db).map DbEntry.id) :=
    (List.perm_insertionSort mergeLE _).map _
  have h3 : ((get_combined_messages buf db limit).map DbEntry.id).count i
      ≤ ((sortedCombined buf db).map DbEntry.id).count i :=
    List.Sublist.count_le ((pyTakeLast_sublist _ _).map _) i
  have h4 : ((sortedCombined buf db).map DbEntry.id).count i = 1 := by
    rw [hperm.count_eq, h1]
  omega

/-- Witness for the amended C2: buffer and store page both holding id 1. -/
theorem merge_dedup_by_id_witness :
    ((1 : Nat) ∈ ([⟨1, "a", "u", "t1"⟩] : List BufEntry).map BufEntry.id ∨
      (1 : Nat) ∈ ([⟨1, "a", "u", some "t1"⟩, ⟨2, "b", "v", some "t2"⟩] : List DbEntry).map
        DbEntry.id) ∧
    (((combinedMessages [⟨1, "a", "u", "t1"⟩]
        [⟨1, "a", "u", some "t1"⟩, ⟨2, "b", "v", some "t2"⟩]).map DbEntry.id).count 1 = 1 ∧
    ((get_combined_messages [⟨1, "a", "u", "t1"⟩]
        [⟨1, "a", "u", some "t1"⟩, ⟨2, "b", "v", some "t2"⟩] 50).map DbEntry.id).count 1 ≤ 1) :=
  ⟨Or.inl (by decide),
    merge_dedup_by_id [⟨1, "a", "u", "t1"⟩] [⟨1, "a", "u", some "t1"⟩, ⟨2, "b", "v", some "t2"⟩]
      50 1 (Or.inl (by decide))⟩

/-- **C8.** The store page is the oldest `limit` messages of the room
(the first 50 of the history in ascending `date_added` order), not the
most recent: when the room has more than 50 persisted messages, every
message beyond the first 50 is excluded from the page, and if such a
message's id is also absent from the buffer snapshot then no entry with
its id appears in the merged history at all. -/
theorem store_page_is_oldest (msgs : List DbEntry) (buf : List BufEntry)
    (hsorted : msgs.Pairwise mergeLE)
    (hnodup : (msgs.map DbEntry.id).Nodup)
    (hlen : 50 < msgs.length) :
    get_room_messages msgs 50 = msgs.take 50 ∧
    (∀ m ∈ msgs.drop 50, m ∉ get_room_messages msgs 50) ∧
    (∀ m ∈ msgs.drop 50, m.id ∉ buf.map BufEntry.id →
      ∀ e ∈ get_combined_messages buf (get_room_messages msgs 50) 50, e.id ≠ m.id) := by
  have hids : ((msgs.take 50).map DbEntry.id ++ (msgs.drop 50).map DbEntry.id).Nodup := by
    rw [← List.map_append, List.take_append_drop]
    exact hnodup
  have hdisj := List.disjoint_of_nodup_append hids
  refine ⟨rfl, ?_, ?_⟩
  · intro m hm hmem
    exact hdisj (List.mem_map_of_mem DbEntry.id hmem) (List.mem_map_of_mem DbEntry.id hm)
  · intro m hm hbuf e he hid
    have he1 : e ∈ sortedCombined buf (get_room_messages msgs 50) :=
      (pyTakeLast_sublist _ _).mem he
    have he2 : e ∈ combinedMessages buf (get_room_messages msgs 50) :=
      (List.perm_insertionSort mergeLE _).mem_iff.mp he1
    have he3 := dedup_foldl_mem _ _ e he2
    rcases he3 with he3 | he3
    · have he4 := dedup_foldl_mem _ _ e he3
      rcases he4 with he4 | he4
      · simp at he4
      · -- e comes from the buffer snapshot
        obtain ⟨b, hb, hbe⟩ := List.mem_map.mp he4
        have : e.id ∈ buf.map BufEntry.id := by
          rw [← hbe, bufToEntry_id]
          exact List.mem_map_of_mem BufEntry.id (List.mem_reverse.mp hb)
        rw [hid] at this
        exact hbuf this
    · -- e comes from the store page
      have : e.id ∈ (msgs.take 50).map DbEntry.id :=
        List.mem_map_of_mem DbEntry.id he3
      rw [hid] at this
      exact hdisj this (List.mem_map_of_mem DbEntry.id hm)

/-- Room history for the C8 witness: 51 persisted messages. -/
def c8Msgs : List DbEntry :=
  (List.range 51).map (fun i => ⟨i, "m", "u", some "t"⟩)

/-- Witness for C8 at a 51-message room history and an empty buffer. -/
theorem store_page_is_oldest_witness :
    c8Msgs.Pairwise mergeLE ∧
    (c8Msgs.map DbEntry.id).Nodup ∧
    50 < c8Msgs.length ∧
    (get_room_messages c8Msgs 50 = c8Msgs.take 50 ∧
    (∀ m ∈ c8Msgs.drop 50, m ∉ get_room_messages c8Msgs 50) ∧
    (∀ m ∈ c8Msgs.drop 50, m.id ∉ ([] : List BufEntry).map BufEntry.id →
      ∀ e ∈ get_combined_messages [] (get_room_messages c8Msgs 50) 50, e.id ≠ m.id)) :=
  ⟨by decide, by decide, by decide,
    store_page_is_oldest c8Msgs [] (by decide) (by decide) (by decide)⟩

end WebChat
